import Mathlib

/-!
Verification of the EC2 instance-type scraper (`resize/aws.go`).

The HTML document tree of `golang.org/x/net/html` is embedded as a rose
tree `Node`; the parent and sibling pointers of the Go library are
recovered through an explicit zipper (`Frame`, `Path`) so that the upward
ancestor walk and the forward sibling walk of `InstanceTypes` can be
expressed faithfully.  Go standard-library string and number helpers used
by the scraper (`strings.TrimSpace`, `strings.Fields`, `strings.Join`,
`strings.ToLower`, `strconv.Atoi`, `strconv.ParseFloat`) are modelled as
executable Lean functions; floating-point cell values are represented as
rationals, which is adequate because no verified property depends on
rounding.
-/

/-- Decidable equality of `Except` results, used to evaluate the scraper
on concrete fixtures. -/
instance {ε α : Type} [DecidableEq ε] [DecidableEq α] : DecidableEq (Except ε α) :=
  fun a b =>
    match a, b with
    | .error e, .error f =>
      if h : e = f then .isTrue (by rw [h]) else .isFalse (by intro hc; cases hc; exact h rfl)
    | .error _, .ok _ => .isFalse (by intro hc; cases hc)
    | .ok _, .error _ => .isFalse (by intro hc; cases hc)
    | .ok x, .ok y =>
      if h : x = y then .isTrue (by rw [h]) else .isFalse (by intro hc; cases hc; exact h rfl)

namespace Resize

/-- Node types of `golang.org/x/net/html` (`html.NodeType`). -/
inductive NodeType where
  | errorNode | textNode | documentNode | elementNode | commentNode | doctypeNode
deriving DecidableEq, Repr

/-- One key/value attribute of a node (`html.Attribute`, namespace omitted:
the scraper never reads it). -/
structure Attribute where
  key : String
  val : String
deriving DecidableEq, Repr

/-- The document tree (`html.Node`): node type, tag atom (as a string),
text payload, attributes and ordered children.  Parent and sibling links
are recovered by the zipper below. -/
inductive Node where
  | mk (type : NodeType) (dataAtom : String) (data : String)
       (attrs : List Attribute) (children : List Node)
deriving Repr

def Node.nodeType : Node → NodeType
  | .mk ty _ _ _ _ => ty

def Node.dataAtom : Node → String
  | .mk _ da _ _ _ => da

def Node.data : Node → String
  | .mk _ _ d _ _ => d

def Node.attrs : Node → List Attribute
  | .mk _ _ _ al _ => al

def Node.children : Node → List Node
  | .mk _ _ _ _ cs => cs

/-- Modelled from Go `strings.TrimSpace`: remove leading and trailing
whitespace. -/
def trimSpace (s : String) : String :=
  ⟨((s.toList.dropWhile Char.isWhitespace).reverse.dropWhile Char.isWhitespace).reverse⟩

/-- Accumulator loop for `fields`. -/
def fieldsAux : List Char → List Char → List String
  | [], cur => if cur = [] then [] else [⟨cur.reverse⟩]
  | c :: rest, cur =>
    if c.isWhitespace then
      if cur = [] then fieldsAux rest [] else ⟨cur.reverse⟩ :: fieldsAux rest []
    else fieldsAux rest (c :: cur)

/-- Modelled from Go `strings.Fields`: split around runs of whitespace,
producing no empty tokens. -/
def fields (s : String) : List String := fieldsAux s.toList []

/-- Modelled from Go `strings.Join` with a separator. -/
def joinSep (sep : String) : List String → String
  | [] => ""
  | [x] => x
  | x :: y :: xs => x ++ sep ++ joinSep sep (y :: xs)

/-- Modelled from Go `strings.ToLower`, restricted to ASCII letters (the
scraper only compares against the ASCII literal "yes"). -/
def toLowerStr (s : String) : String :=
  ⟨s.toList.map (fun c => if 'A' ≤ c ∧ c ≤ 'Z' then Char.ofNat (c.toNat + 32) else c)⟩

/-- Decimal value of a digit list. -/
def digitsToNat (l : List Char) : Nat :=
  l.foldl (fun acc c => acc * 10 + (c.toNat - 48)) 0

/-- Modelled from Go `strconv.Atoi`: an optional sign followed by at least
one decimal digit (the 64-bit overflow bound is not modelled; no verified
property depends on it). -/
def Atoi (s : String) : Option Int :=
  let digits : List Char → Option Int := fun l =>
    if l ≠ [] ∧ l.all Char.isDigit then some (digitsToNat l : Int) else none
  match s.toList with
  | '+' :: rest => digits rest
  | '-' :: rest => (digits rest).map (fun n => -n)
  | rest => digits rest

/-- Modelled from Go `strconv.ParseFloat`, restricted to the decimal forms
the scraped cells use: optional sign, digits with an optional fractional
part, and an optional decimal exponent.  The value is returned as a
rational. -/
def ParseFloat (s : String) : Option Rat :=
  let mantissa : List Char → Option Rat := fun l =>
    match l.splitOn '.' with
    | [ip] => if ip ≠ [] ∧ ip.all Char.isDigit then some (mkRat (digitsToNat ip) 1) else none
    | [ip, fp] =>
      if (ip ≠ [] ∨ fp ≠ []) ∧ ip.all Char.isDigit ∧ fp.all Char.isDigit then
        some (mkRat (digitsToNat (ip ++ fp)) (10 ^ fp.length))
      else none
    | _ => none
  let signedMantissa : List Char → Option Rat := fun l =>
    match l with
    | '+' :: rest => mantissa rest
    | '-' :: rest => (mantissa rest).map Rat.neg
    | rest => mantissa rest
  let exponent : List Char → Option Int := fun l =>
    let digits : List Char → Option Int := fun d =>
      if d ≠ [] ∧ d.all Char.isDigit then some (digitsToNat d : Int) else none
    match l with
    | '+' :: rest => digits rest
    | '-' :: rest => (digits rest).map (fun n => -n)
    | rest => digits rest
  match (s.toList.map (fun c => if c = 'E' then 'e' else c)).splitOn 'e' with
  | [m] => signedMantissa m
  | [m, e] =>
    match signedMantissa m, exponent e with
    | some mv, some ev =>
      some (if 0 ≤ ev then mkRat (mv.num * ((10 : Int) ^ ev.toNat)) mv.den
            else mkRat mv.num (mv.den * 10 ^ (-ev).toNat))
    | _, _ => none
  | _ => none

/-- Loop of `attr`: first attribute whose key matches wins. -/
def attrAux (key : String) : List Attribute → String
  | [] => ""
  | a :: rest => if a.key == key then a.val else attrAux key rest

/-- The `attr` helper of `aws.go`: value of the first attribute with the
given key, or the empty string when there is none. -/
def attr (n : Node) (key : String) : String := attrAux key n.attrs

mutual
/-- The `findAll` traversal of `aws.go`: if the node itself matches it is
returned alone (its subtree is not visited); otherwise the traversal
recurses into the children in order and concatenates their results. -/
def findAll (matcher : Node → Bool) : Node → List Node
  | .mk ty da d al cs =>
    if matcher (.mk ty da d al cs) then [.mk ty da d al cs]
    else findAllList matcher cs

/-- Child loop of `findAll`. -/
def findAllList (matcher : Node → Bool) : List Node → List Node
  | [] => []
  | c :: cs => findAll matcher c ++ findAllList matcher cs
end

/-- The `byTag` matcher of `aws.go`: the node's tag atom equals the given
atom. -/
def byTag (a : String) (n : Node) : Bool := n.dataAtom == a

/-- Matcher used by `text`: the node is a text node. -/
def isTextNode (n : Node) : Bool := n.nodeType == NodeType.textNode

/-- The `text` helper of `aws.go`: collect the `Data` of every text node
found by `findAll`, join with single spaces, and trim the ends. -/
def text (n : Node) : String :=
  trimSpace (joinSep " " ((findAll isTextNode n).map Node.data))

/-- The scraped record (`InstanceType` of `aws.go`); the two float64
fields are modelled as rationals. -/
structure InstanceType where
  Name : String
  CPUs : Int
  Memory : Rat
  Storage : String
  NetworkSpec : String
  Processor : String
  ClockSpeed : Rat
  IntelAVX : Bool
  IntelAVX2 : Bool
  IntelTurbo : Bool
  EBSOPT : Bool
  EnhancedNetworking : Bool
deriving DecidableEq, Repr

/-- The `yesNo` closure of `parseRow`: true iff the lower-cased cell text
is exactly "yes". -/
def yesNo (col : Node) : Bool := toLowerStr (text col) == "yes"

/-- Body of `parseRow` once the twelve cells are in hand: boolean and
string fields are taken directly, then CPUs, Memory and ClockSpeed are
parsed in that order, failing fast.  The error message of the ClockSpeed
branch reproduces `aws.go` verbatim: it names Memory and echoes the
Memory cell (`cols[2]`), not the ClockSpeed cell. -/
def parseRowAt (c0 c1 c2 c3 c4 c5 c6 c7 c8 c9 c10 c11 : Node) :
    Except String InstanceType :=
  match Atoi (text c1) with
  | none => .error ("expected number for CPUs, got \x27" ++ text c1 ++ "\x27")
  | some cpus =>
    match ParseFloat (text c2) with
    | none => .error ("expected number for Memory, got \x27" ++ text c2 ++ "\x27")
    | some mem =>
      match ParseFloat (text c6) with
      | none => .error ("expected number for Memory, got \x27" ++ text c2 ++ "\x27")
      | some clock =>
        .ok ⟨text c0, cpus, mem, text c3, text c4, text c5, clock,
             yesNo c7, yesNo c8, yesNo c9, yesNo c10, yesNo c11⟩

/-- The `parseRow` function of `aws.go`: find the `td` cells of the row,
require exactly 12 of them, then build the record. -/
def parseRow (row : Node) : Except String InstanceType :=
  let cols := findAll (byTag "td") row
  if h : cols.length = 12 then
    parseRowAt (cols.get ⟨0, by omega⟩) (cols.get ⟨1, by omega⟩)
      (cols.get ⟨2, by omega⟩) (cols.get ⟨3, by omega⟩)
      (cols.get ⟨4, by omega⟩) (cols.get ⟨5, by omega⟩)
      (cols.get ⟨6, by omega⟩) (cols.get ⟨7, by omega⟩)
      (cols.get ⟨8, by omega⟩) (cols.get ⟨9, by omega⟩)
      (cols.get ⟨10, by omega⟩) (cols.get ⟨11, by omega⟩)
  else .error ("expected 12 columns, got " ++ toString cols.length)

/-- One step of tree context: everything about a node's parent except the
node itself.  `left` holds the elder siblings nearest-first, `right` the
younger siblings in document order. -/
structure Frame where
  nodeType : NodeType
  dataAtom : String
  data : String
  attrs : List Attribute
  left : List Node
  right : List Node

/-- Rebuild the parent node from its frame and the focused child. -/
def Frame.fill (f : Frame) (n : Node) : Node :=
  .mk f.nodeType f.dataAtom f.data f.attrs (f.left.reverse ++ n :: f.right)

/-- A path from a node up to the document root: innermost frame first. -/
abbrev Path := List Frame

mutual
/-- The recursive `findMatrix` search of `InstanceTypes`, generalised over
the predicate: first node in preorder satisfying it, together with its
zipper path (which supplies the `Parent` and `NextSibling` pointers of the
Go tree). -/
def findLoc (p : Node → Bool) : Node → Path → Option (Node × Path)
  | .mk ty da d al cs, path =>
    if p (.mk ty da d al cs) then some (.mk ty da d al cs, path)
    else findLocList p ty da d al [] cs path

/-- Child loop of `findLoc`: try each child in order, extending the path
with the frame of the parent under construction. -/
def findLocList (p : Node → Bool) (ty : NodeType) (da d : String)
    (al : List Attribute) (left : List Node) : List Node → Path → Option (Node × Path)
  | [], _ => none
  | c :: cs, path =>
    match findLoc p c (⟨ty, da, d, al, left, cs⟩ :: path) with
    | some loc => some loc
    | none => findLocList p ty da d al (c :: left) cs path
end

/-- The local `contains` helper of `InstanceTypes`: linear scan for an
exactly equal string. -/
def containsStr : List String → String → Bool
  | [], _ => false
  | s :: rest, ele => if s == ele then true else containsStr rest ele

/-- Whitespace-split class tokens of a node's `class` attribute. -/
def classTokens (n : Node) : List String := fields (attr n "class")

/-- Predicate of the upward walk: class tokens contain both "section" and
"title-wrapper". -/
def isSectionTitleWrapper (n : Node) : Bool :=
  containsStr (classTokens n) "section" && containsStr (classTokens n) "title-wrapper"

/-- Predicate of the sibling walk: class tokens contain both "section" and
"table-wrapper". -/
def isSectionTableWrapper (n : Node) : Bool :=
  containsStr (classTokens n) "section" && containsStr (classTokens n) "table-wrapper"

/-- Upward loop: test the current node, then move to its parent, as in
`for section = ...; section != nil; section = section.Parent`. -/
def walkUp (pred : Node → Bool) : Node → Path → Option (Node × Path)
  | n, [] => if pred n then some (n, []) else none
  | n, f :: rest =>
    if pred n then some (n, f :: rest) else walkUp pred (f.fill n) rest

/-- The upward walk of `InstanceTypes` starts at the PARENT of the anchor
node (`section = matrixHeader.Parent`); when the anchor is the root the
loop body never runs. -/
def locateHeader : Node → Path → Option (Node × Path)
  | _, [] => none
  | anchor, f :: rest => walkUp isSectionTitleWrapper (f.fill anchor) rest

/-- Forward sibling loop: first following sibling satisfying the
predicate, as in `for next = section.NextSibling; ...`. -/
def walkRight (pred : Node → Bool) : List Node → Option Node
  | [] => none
  | n :: rest => if pred n then some n else walkRight pred rest

/-- The sibling walk of `InstanceTypes`, starting at the header's next
sibling; a header that is the document root has no siblings. -/
def locateWrapper : Path → Option Node
  | [] => none
  | f :: _ => walkRight isSectionTableWrapper f.right

/-- The row loop of `InstanceTypes`: parse rows left to right, returning
the first error encountered, otherwise the list of records in order. -/
def parseRows : List Node → Except String (List InstanceType)
  | [] => .ok []
  | r :: rs =>
    match parseRow r with
    | .error e => .error e
    | .ok t =>
      match parseRows rs with
      | .error e => .error e
      | .ok ts => .ok (t :: ts)

/-- Row-table stage of `InstanceTypes`: enumerate `tr` nodes inside the
located wrapper, require at least 3, drop the first (header) row and
parse the rest. -/
def tableStage (nxt : Node) : Except String (List InstanceType) :=
  let rows := findAll (byTag "tr") nxt
  if rows.length < 3 then .error "malformed HTML: could not find table"
  else parseRows (rows.drop 1)

/-- The anchor predicate of `findMatrix`: attribute "id" equals
"instance-type-matrix". -/
def isMatrixAnchor (n : Node) : Bool := attr n "id" == "instance-type-matrix"

/-- The document-side part of `InstanceTypes`: everything after
`html.Parse` has produced the root node. -/
def instanceTypesFromRoot (root : Node) : Except String (List InstanceType) :=
  match findLoc isMatrixAnchor root [] with
  | none => .error "no node with id \x27instance-type-matrix\x27"
  | some (matrixHeader, path) =>
    match locateHeader matrixHeader path with
    | none => .error "malformed HTML: title-wrapper not found"
    | some (_, hpath) =>
      match locateWrapper hpath with
      | none => .error "malformed HTML: table-wrapper not found"
      | some nxt => tableStage nxt

/-- An HTTP response as the scraper observes it: status code, status line
and body. -/
structure Response where
  statusCode : Nat
  status : String
  body : String

/-- The `InstanceTypes` entry point.  The HTTP GET and `html.Parse` are
external effects, passed in as the result of the GET (`fetch`) and the
body parser (`parse`): a transport error propagates, a status other than
200 (`http.StatusOK`) fails before the body is parsed, a parse error
propagates, and otherwise the document pipeline runs. -/
def InstanceTypes (fetch : Except String Response)
    (parse : String → Except String Node) : Except String (List InstanceType) :=
  match fetch with
  | .error e => .error e
  | .ok resp =>
    if resp.statusCode ≠ 200 then .error ("bad response from AWS: " ++ resp.status)
    else
      match parse resp.body with
      | .error e => .error e
      | .ok root => instanceTypesFromRoot root

mutual
/-- Preorder listing of a subtree: the node, then its children's listings
in document order. -/
def preorder : Node → List Node
  | .mk ty da d al cs => .mk ty da d al cs :: preorderList cs

/-- Preorder listing of a forest. -/
def preorderList : List Node → List Node
  | [] => []
  | c :: cs => preorder c ++ preorderList cs
end

/-- Stated from the spec's words for the all-matches search: EVERY node of
the subtree satisfying the predicate, in preorder, a match not pruning its
subtree.  Kept for comparison with `findAll`. -/
def findAllSpec (p : Node → Bool) (n : Node) : List Node :=
  (preorder n).filter p

/-- Stated from the spec's words for the text extractor: all descendant
text-node payloads in document order, joined by single spaces, trimmed,
with every internal whitespace run collapsed to a single space.  Kept for
comparison with `text`. -/
def textSpec (n : Node) : String :=
  joinSep " " (fields (joinSep " " (((preorder n).filter isTextNode).map Node.data)))

/-- Stated from the spec's words for the header locator: the upward walk
begins at the anchor node itself, not at its parent.  Kept for comparison
with `locateHeader`. -/
def locateHeaderSpec (anchor : Node) (path : Path) : Option (Node × Path) :=
  walkUp isSectionTitleWrapper anchor path

/-- Ancestor chain determined by a zipper path: parent first, then
grandparent, and so on up to the root. -/
def ancestorsOf : Node → Path → List Node
  | _, [] => []
  | n, f :: rest => f.fill n :: ancestorsOf (f.fill n) rest

/-- Following siblings determined by a zipper path: the focused node's
younger siblings in document order (none at the root). -/
def siblingsAfter : Path → List Node
  | [] => []
  | f :: _ => f.right

/-! Concrete fixture documents. -/

/-- Element node shorthand. -/
def elemN (tag : String) (al : List Attribute) (cs : List Node) : Node :=
  .mk .elementNode tag "" al cs

/-- Text node shorthand. -/
def textN (s : String) : Node := .mk .textNode "" s [] []

/-- A table cell holding one text node. -/
def tdCell (s : String) : Node := elemN "td" [] [textN s]

/-- A data row from the given twelve cell texts. -/
def trRow (l : List String) : Node := elemN "tr" [] (l.map tdCell)

/-- A `td` nested directly inside another `td`. -/
def tdInner : Node := elemN "td" [] []

/-- Outer `td` containing `tdInner`: two matching nodes for the tag
matcher "td", one a descendant of the other. -/
def tdOuter : Node := elemN "td" [] [tdInner]

/-- A span whose single text node holds an internal double space. -/
def spanWs : Node := elemN "span" [] [textN "a  b"]

/-- A cell with nested markup and irregular whitespace, all text nodes
leaves. -/
def cellW : Node := elemN "td" [] [textN " a ", elemN "b" [] [textN "x  y"], textN ""]

/-- A node that is at once the anchor (id "instance-type-matrix") and a
"section title-wrapper", with no parent. -/
def anchorSelf : Node :=
  elemN "div" [⟨"id", "instance-type-matrix"⟩, ⟨"class", "section title-wrapper"⟩] []

/-- The Memory cell of the bad-clock row. -/
def memCellBC : Node := tdCell "1.7"

/-- The ClockSpeed cell of the bad-clock row: non-numeric text. -/
def clockCellBC : Node := tdCell "n/a"

/-- A twelve-cell row whose ClockSpeed cell does not parse while every
other field is well formed. -/
def rowBadClock : Node :=
  elemN "tr" [] [tdCell "m1.small", tdCell "1", memCellBC, tdCell "160",
    tdCell "Low", tdCell "Intel Xeon Family", clockCellBC, tdCell "Yes",
    tdCell "no", tdCell "YES", tdCell "", tdCell "maybe"]

/-- A row with thirteen cells. -/
def rowBad13 : Node :=
  elemN "tr" [] ((List.replicate 13 "x").map tdCell)

/-- A fully well-formed data row with mixed boolean texts. -/
def rowOk1 : Node :=
  trRow ["m1.small", "1", "1.7", "160", "Low", "Intel Xeon Family", "2.4",
    "Yes", "no", "YES", "", "maybe"]

/-- A second well-formed data row. -/
def rowOk2 : Node :=
  trRow ["m1.medium", "2", "3.75", "410", "Moderate", "Intel", "2.5",
    "yes", "yes", "no", "Yes", "No"]

/-- The header row of the fixture table (never parsed). -/
def rowHeader : Node := elemN "tr" [] [elemN "th" [] [textN "Instance Type"]]

/-- The fixture table: one header row and two data rows. -/
def tableOk : Node := elemN "table" [] [elemN "tbody" [] [rowHeader, rowOk1, rowOk2]]

/-- The fixture table wrapper. -/
def wrapperOk : Node := elemN "div" [⟨"class", "section table-wrapper"⟩] [tableOk]

/-- The fixture anchor node. -/
def anchorOk : Node :=
  elemN "h2" [⟨"id", "instance-type-matrix"⟩] [textN "Instance Type Matrix"]

/-- The fixture title wrapper, parent of the anchor. -/
def headerOk : Node := elemN "div" [⟨"class", "section title-wrapper"⟩] [anchorOk]

/-- The fixture document: the title wrapper followed by the table
wrapper. -/
def docOk : Node := elemN "div" [] [headerOk, wrapperOk]

/-- Zipper frame of the anchor inside `headerOk`. -/
def okF1 : Frame :=
  ⟨.elementNode, "div", "", [⟨"class", "section title-wrapper"⟩], [], []⟩

/-- Zipper frame of `headerOk` inside `docOk`. -/
def okF0 : Frame := ⟨.elementNode, "div", "", [], [], [wrapperOk]⟩

/-- The record parsed from `rowOk1`. -/
def recA : InstanceType :=
  ⟨"m1.small", 1, mkRat 17 10, "160", "Low", "Intel Xeon Family", mkRat 12 5,
   true, false, true, false, false⟩

/-- The record parsed from `rowOk2`. -/
def recB : InstanceType :=
  ⟨"m1.medium", 2, mkRat 15 4, "410", "Moderate", "Intel", mkRat 5 2,
   true, true, false, true, false⟩

/-- A successful fixture response. -/
def respOk : Response := ⟨200, "200 OK", "page"⟩

/-- A 503 fixture response. -/
def respBad : Response := ⟨503, "503 Service Unavailable", "ignored"⟩

/-- A node carrying two attributes with the same key. -/
def dupAttrNode : Node :=
  .mk .elementNode "div" "" [⟨"id", "first"⟩, ⟨"id", "second"⟩] []

/-- A node with no attributes at all. -/
def noIdNode : Node := elemN "div" [] []

/-- A node whose "id" attribute is present but empty. -/
def emptyIdNode : Node := elemN "div" [⟨"id", ""⟩] []

/-- A document whose anchor has ancestors, none of which is a section
title wrapper. -/
def docNoHeader : Node :=
  elemN "div" [] [elemN "p" [] [elemN "span" [⟨"id", "instance-type-matrix"⟩] []]]

/-- The anchor of `docNoHeader`. -/
def anchorNH : Node := elemN "span" [⟨"id", "instance-type-matrix"⟩] []

/-- Zipper path of `anchorNH` inside `docNoHeader`. -/
def pathNH : Path :=
  [⟨.elementNode, "p", "", [], [], []⟩, ⟨.elementNode, "div", "", [], [], []⟩]

/-- True when every text node of the subtree is a leaf, as is the case
for trees produced by an HTML parser. -/
def textNodesAreLeaves (n : Node) : Bool :=
  (preorder n).all (fun x => !(isTextNode x) || x.children.isEmpty)

/-- Default node used with `List.getD` when reading a cell by index. -/
def zeroNode : Node := .mk .errorNode "" "" [] []

/-- A body parser that always yields the fixture document, standing in
for `html.Parse` on the fixture page. -/
def parseFixture : String → Except String Node := fun _ => .ok docOk

/-! Helper lemmas. -/

theorem findAllList_flatMap (p : Node → Bool) (l : List Node) :
    findAllList p l = l.flatMap (findAll p) := by
  induction l with
  | nil => simp [findAllList]
  | cons c cs ih => simp [findAllList, ih]

theorem preorderList_flatMap (l : List Node) :
    preorderList l = l.flatMap preorder := by
  induction l with
  | nil => simp [preorderList]
  | cons c cs ih => simp [preorderList, ih]

mutual
theorem findAll_sound (p : Node → Bool) (n : Node) :
    ∀ x ∈ findAll p n, p x = true := by
  match n with
  | .mk ty da d al cs =>
    rw [findAll]
    split
    · intro x hx
      rw [List.mem_singleton] at hx
      subst hx
      assumption
    · exact findAllList_sound p cs

theorem findAllList_sound (p : Node → Bool) (l : List Node) :
    ∀ x ∈ findAllList p l, p x = true := by
  match l with
  | [] => intro x hx; simp [findAllList] at hx
  | c :: cs =>
    rw [findAllList]
    intro x hx
    rcases List.mem_append.mp hx with h | h
    · exact findAll_sound p c x h
    · exact findAllList_sound p cs x h
end

mutual
theorem findAll_sublist (p : Node → Bool) (n : Node) :
    (findAll p n).Sublist ((preorder n).filter p) := by
  match n with
  | .mk ty da d al cs =>
    by_cases hp : p (.mk ty da d al cs)
    · simp only [findAll, preorder, List.filter_cons, hp, if_true]
      exact (List.nil_sublist _).cons₂ _
    · simp only [findAll, preorder, List.filter_cons, hp, if_false]
      exact findAllList_sublist p cs

theorem findAllList_sublist (p : Node → Bool) (l : List Node) :
    (findAllList p l).Sublist ((preorderList l).filter p) := by
  match l with
  | [] => simp [findAllList, preorderList]
  | c :: cs =>
    rw [findAllList, preorderList, List.filter_append]
    exact (findAll_sublist p c).append (findAllList_sublist p cs)
end

mutual
theorem findAll_eq_filter (p : Node → Bool) (n : Node)
    (h : ∀ x ∈ preorder n, p x = true → x.children = []) :
    findAll p n = (preorder n).filter p := by
  match n with
  | .mk ty da d al cs =>
    by_cases hp : p (.mk ty da d al cs)
    · have hcs : cs = [] := by
        have := h (.mk ty da d al cs) (by rw [preorder]; exact List.mem_cons_self _ _) hp
        simpa [Node.children] using this
      subst hcs
      simp [findAll, preorder, preorderList, hp]
    · simp only [findAll, preorder, List.filter_cons, hp, if_false]
      exact findAllList_eq_filter p cs fun x hx =>
        h x (by rw [preorder]; exact List.mem_cons_of_mem _ hx)

theorem findAllList_eq_filter (p : Node → Bool) (l : List Node)
    (h : ∀ x ∈ preorderList l, p x = true → x.children = []) :
    findAllList p l = (preorderList l).filter p := by
  match l with
  | [] => simp [findAllList, preorderList]
  | c :: cs =>
    rw [findAllList, preorderList, List.filter_append]
    rw [findAll_eq_filter p c fun x hx =>
          h x (by rw [preorderList]; exact List.mem_append_left _ hx),
        findAllList_eq_filter p cs fun x hx =>
          h x (by rw [preorderList]; exact List.mem_append_right _ hx)]
end

theorem walkUp_find (pred : Node → Bool) :
    ∀ (path : Path) (n : Node),
      (walkUp pred n path).map Prod.fst = (n :: ancestorsOf n path).find? pred := by
  intro path
  induction path with
  | nil =>
    intro n
    by_cases hp : pred n <;> simp [walkUp, ancestorsOf, List.find?, hp]
  | cons f rest ih =>
    intro n
    by_cases hp : pred n
    · simp [walkUp, hp, List.find?]
    · simp only [walkUp, hp, Bool.false_eq_true, if_false, ancestorsOf]
      rw [List.find?_cons_of_neg _ (by simpa using hp)]
      exact ih (f.fill n)

theorem walkRight_find (pred : Node → Bool) (l : List Node) :
    walkRight pred l = l.find? pred := by
  induction l with
  | nil => simp [walkRight, List.find?]
  | cons n rest ih =>
    by_cases hp : pred n <;> simp [walkRight, hp, List.find?, ih]

theorem parseRows_ok_length :
    ∀ (l : List Node) (ts : List InstanceType), parseRows l = .ok ts → ts.length = l.length := by
  intro l
  induction l with
  | nil =>
    intro ts h
    simp only [parseRows] at h
    cases h
    rfl
  | cons r rs ih =>
    intro ts h
    simp only [parseRows] at h
    split at h
    · cases h
    · split at h
      · cases h
      · next t _ ts' hts' =>
        cases h
        simp [ih ts' hts']

theorem parseRows_ok_get :
    ∀ (l : List Node) (ts : List InstanceType), parseRows l = .ok ts →
      ∀ (i : Nat) (h1 : i < l.length) (h2 : i < ts.length),
        parseRow (l.get ⟨i, h1⟩) = .ok (ts.get ⟨i, h2⟩) := by
  intro l
  induction l with
  | nil => intro ts _ i h1; simp at h1
  | cons r rs ih =>
    intro ts h i h1 h2
    simp only [parseRows] at h
    split at h
    · cases h
    · next t ht =>
      split at h
      · cases h
      · next ts' hts' =>
        cases h
        match i with
        | 0 => simpa using ht
        | i + 1 =>
          exact ih ts' hts' i (by simpa using h1) (by simpa using h2)

theorem parseRows_ok_mem :
    ∀ (l : List Node) (ts : List InstanceType), parseRows l = .ok ts →
      ∀ r ∈ l, ∃ t, parseRow r = .ok t := by
  intro l
  induction l with
  | nil => intro ts _ r hr; simp at hr
  | cons r0 rs ih =>
    intro ts h r hr
    simp only [parseRows] at h
    split at h
    · cases h
    · next t ht =>
      split at h
      · cases h
      · next ts' hts' =>
        rcases List.mem_cons.mp hr with rfl | hr
        · exact ⟨t, ht⟩
        · exact ih ts' hts' r hr

theorem getD_eq_get {α : Type} :
    ∀ (l : List α) (i : Nat) (d : α) (h : i < l.length), l.getD i d = l.get ⟨i, h⟩
  | a :: l, 0, d, h => rfl
  | a :: l, i + 1, d, h => getD_eq_get l i d (by simpa using h)

theorem attrAux_find (key : String) (l : List Attribute) :
    attrAux key l = (((l.find? (fun a => a.key == key)).map Attribute.val).getD "") := by
  induction l with
  | nil => simp [attrAux, List.find?]
  | cons a rest ih =>
    by_cases hk : a.key == key
    · simp [attrAux, hk, List.find?_cons_of_pos _ hk]
    · rw [attrAux, if_neg (by simpa using hk), List.find?_cons_of_neg _ (by simpa using hk)]
      exact ih

theorem parseRow_ok_elim (row : Node) (t : InstanceType) (h : parseRow row = .ok t) :
    ∃ h12 : (findAll (byTag "td") row).length = 12,
      parseRowAt ((findAll (byTag "td") row).get ⟨0, by omega⟩)
        ((findAll (byTag "td") row).get ⟨1, by omega⟩)
        ((findAll (byTag "td") row).get ⟨2, by omega⟩)
        ((findAll (byTag "td") row).get ⟨3, by omega⟩)
        ((findAll (byTag "td") row).get ⟨4, by omega⟩)
        ((findAll (byTag "td") row).get ⟨5, by omega⟩)
        ((findAll (byTag "td") row).get ⟨6, by omega⟩)
        ((findAll (byTag "td") row).get ⟨7, by omega⟩)
        ((findAll (byTag "td") row).get ⟨8, by omega⟩)
        ((findAll (byTag "td") row).get ⟨9, by omega⟩)
        ((findAll (byTag "td") row).get ⟨10, by omega⟩)
        ((findAll (byTag "td") row).get ⟨11, by omega⟩) = .ok t := by
  simp only [parseRow] at h
  split at h
  · next h12 => exact ⟨h12, h⟩
  · cases h

/-! Claim theorems. -/

/-- C1 counterexample: for the matcher "tag equals td" on a `td` nested
inside another `td`, the subtree holds two matching nodes but `findAll`
returns only one — a matching descendant of a matching node does NOT
appear, so a match does prune its subtree, contrary to the claim. -/
theorem findAll_prunes_cex :
    (findAll (byTag "td") tdOuter).length = 1
    ∧ (findAllSpec (byTag "td") tdOuter).length = 2
    ∧ byTag "td" tdOuter = true ∧ byTag "td" tdInner = true := by decide

/-- C1 (amended): `findAll` returns only nodes satisfying the predicate,
as a subsequence of the preorder listing of all satisfying nodes (hence in
preorder depth-first order); but when a node itself satisfies the
predicate it is returned alone and its descendants are not tested. -/
theorem findAll_amended :
    (∀ (p : Node → Bool) (n : Node), ∀ x ∈ findAll p n, p x = true)
    ∧ (∀ (p : Node → Bool) (n : Node), (findAll p n).Sublist ((preorder n).filter p))
    ∧ (∀ (p : Node → Bool) (n : Node), p n = true → findAll p n = [n]) := by
  refine ⟨findAll_sound, findAll_sublist, ?_⟩
  intro p n hp
  cases n with
  | mk ty da d al cs => simp [findAll, hp]

/-- Witness for C1 (amended): the pruning conjunct applied to the nested
`td` fixture. -/
theorem findAll_amended_witness : findAll (byTag "td") tdOuter = [tdOuter] :=
  findAll_amended.2.2 (byTag "td") tdOuter (by decide)

/-- C2 (code bug): on a row whose ClockSpeed cell reads "n/a" while the
Memory cell reads "1.7", `parseRow` fails — but the error names Memory
and echoes the Memory cell text "1.7", not ClockSpeed and "n/a" as the
spec requires, because the ClockSpeed branch of `aws.go` reuses the
Memory error message and `cols[2]`. -/
theorem parseRow_clockSpeed_bug :
    text clockCellBC = "n/a"
    ∧ ParseFloat (text clockCellBC) = none
    ∧ text memCellBC = "1.7"
    ∧ (ParseFloat (text memCellBC)).isSome = true
    ∧ parseRow rowBadClock = .error "expected number for Memory, got \x271.7\x27" := by
  decide

/-- C3 counterexample: a node holding one text node "a··b" (two internal
spaces): `text` keeps the internal run, while the spec's collapsed form
would be "a·b". -/
theorem text_no_collapse_cex :
    text spanWs = "a  b" ∧ textSpec spanWs = "a b" ∧ text spanWs ≠ textSpec spanWs := by
  decide

/-- C3 (amended): for every node whose text nodes are leaves, `text`
returns the concatenation of the data of every descendant text node in
document order joined by single spaces with leading and trailing
whitespace removed — internal whitespace runs are NOT collapsed. -/
theorem text_amended (n : Node) (h : textNodesAreLeaves n = true) :
    text n = trimSpace (joinSep " " (((preorder n).filter isTextNode).map Node.data)) := by
  have hleaves : ∀ x ∈ preorder n, isTextNode x = true → x.children = [] := by
    intro x hx ht
    have hall := (List.all_eq_true.mp h) x hx
    simp only [ht, Bool.not_true, Bool.false_or] at hall
    simpa using hall
  rw [text, findAll_eq_filter isTextNode n hleaves]

/-- Witness for C3 (amended): the mixed-markup fixture cell. -/
theorem text_amended_witness :
    text cellW = trimSpace (joinSep " " (((preorder cellW).filter isTextNode).map Node.data)) :=
  text_amended cellW (by decide)

/-- C4 counterexample: a root node that is at once the anchor and a
"section title-wrapper".  Per the claim the upward walk starts at the
anchor, so the header would be found; the code starts at the anchor's
parent, exhausts the (empty) chain and reports the title wrapper as not
found. -/
theorem locateHeader_skips_anchor_cex :
    isMatrixAnchor anchorSelf = true
    ∧ isSectionTitleWrapper anchorSelf = true
    ∧ findLoc isMatrixAnchor anchorSelf [] = some (anchorSelf, [])
    ∧ instanceTypesFromRoot anchorSelf = .error "malformed HTML: title-wrapper not found"
    ∧ (locateHeaderSpec anchorSelf []).isSome = true :=
  ⟨by decide, by decide, rfl, rfl, rfl⟩

/-- C4 (amended): the upward walk starts at the anchor's PARENT (the
anchor itself is never tested) and selects the first ancestor whose class
tokens contain both "section" and "title-wrapper", failing with the
SectionHeaderNotFound message when the ancestor chain is exhausted; from
the found header the forward walk selects the first following sibling
whose class tokens contain both "section" and "table-wrapper", failing
with the TableWrapperNotFound message when the siblings are exhausted. -/
theorem locator_amended :
    (∀ (anchor : Node) (path : Path),
       (locateHeader anchor path).map Prod.fst
         = (ancestorsOf anchor path).find? isSectionTitleWrapper)
    ∧ (∀ path : Path,
        locateWrapper path = (siblingsAfter path).find? isSectionTableWrapper)
    ∧ (∀ (root anchor : Node) (path : Path),
        findLoc isMatrixAnchor root [] = some (anchor, path) →
        (locateHeader anchor path = none →
           instanceTypesFromRoot root = .error "malformed HTML: title-wrapper not found")
        ∧ ∀ (hdr : Node) (hpath : Path), locateHeader anchor path = some (hdr, hpath) →
            locateWrapper hpath = none →
            instanceTypesFromRoot root = .error "malformed HTML: table-wrapper not found") := by
  refine ⟨?_, ?_, ?_⟩
  · intro anchor path
    cases path with
    | nil => simp [locateHeader, ancestorsOf, List.find?]
    | cons f rest =>
      rw [locateHeader, walkUp_find]
      simp [ancestorsOf]
  · intro path
    cases path with
    | nil => simp [locateWrapper, siblingsAfter, List.find?]
    | cons f rest => simp [locateWrapper, siblingsAfter, walkRight_find]
  · intro root anchor path h1
    constructor
    · intro h2
      simp [instanceTypesFromRoot, h1, h2]
    · intro hdr hpath h2 h3
      simp [instanceTypesFromRoot, h1, h2, h3]

/-- Witness for C4 (amended): on the fixture whose anchor has only
unclassed ancestors, the pipeline reports the title wrapper as not
found. -/
theorem locator_amended_witness :
    instanceTypesFromRoot docNoHeader = .error "malformed HTML: title-wrapper not found" :=
  (locator_amended.2.2 docNoHeader anchorNH pathNH rfl).1 rfl

/-- C5: once the table wrapper is located, the pipeline reduces to the
row-table stage; fewer than 3 enumerated `tr` nodes fail with the
TableTooSmall message (no row is parsed), otherwise exactly the first row
is discarded and the remaining rows are parsed in document order, so a
successful result holds exactly N−1 records for N enumerated rows, the
i-th record parsed from the (i+1)-th row. -/
theorem instanceTypes_tableStage (root anchor hdr nxt : Node) (path hpath : Path)
    (h1 : findLoc isMatrixAnchor root [] = some (anchor, path))
    (h2 : locateHeader anchor path = some (hdr, hpath))
    (h3 : locateWrapper hpath = some nxt) :
    instanceTypesFromRoot root = tableStage nxt
    ∧ ((findAll (byTag "tr") nxt).length < 3 →
        instanceTypesFromRoot root = .error "malformed HTML: could not find table")
    ∧ (3 ≤ (findAll (byTag "tr") nxt).length →
        instanceTypesFromRoot root = parseRows ((findAll (byTag "tr") nxt).drop 1))
    ∧ ∀ ts, instanceTypesFromRoot root = .ok ts →
        ts.length + 1 = (findAll (byTag "tr") nxt).length
        ∧ ∀ (i : Nat) (hi : i < ((findAll (byTag "tr") nxt).drop 1).length)
            (hj : i < ts.length),
            parseRow (((findAll (byTag "tr") nxt).drop 1).get ⟨i, hi⟩)
              = .ok (ts.get ⟨i, hj⟩) := by
  have hmain : instanceTypesFromRoot root = tableStage nxt := by
    simp [instanceTypesFromRoot, h1, h2, h3]
  refine ⟨hmain, ?_, ?_, ?_⟩
  · intro hlt
    rw [hmain]
    simp [tableStage, hlt]
  · intro hge
    rw [hmain]
    simp [tableStage, Nat.not_lt.mpr hge]
  · intro ts hok
    rw [hmain] at hok
    simp only [tableStage] at hok
    split at hok
    · cases hok
    · next hge =>
      have hlen := parseRows_ok_length _ _ hok
      constructor
      · simp only [List.length_drop] at hlen
        omega
      · intro i hi hj
        exact parseRows_ok_get _ _ hok i hi hj

/-- Witness for C5: the fixture document reduces to its table stage. -/
theorem instanceTypes_tableStage_witness :
    instanceTypesFromRoot docOk = tableStage wrapperOk :=
  (instanceTypes_tableStage docOk anchorOk headerOk wrapperOk [okF1, okF0] [okF0]
    rfl rfl rfl).1

/-- C6: `parseRow` fails with the ColumnCountMismatch message carrying the
actual cell count whenever the `findAll`-enumerated `td` cells do not
number exactly 12, and can only succeed when they do. -/
theorem parseRow_columnCount (row : Node) :
    ((findAll (byTag "td") row).length ≠ 12 →
      parseRow row
        = .error ("expected 12 columns, got " ++ toString (findAll (byTag "td") row).length))
    ∧ ∀ t, parseRow row = .ok t → (findAll (byTag "td") row).length = 12 := by
  constructor
  · intro h
    simp only [parseRow]
    rw [dif_neg h]
  · intro t h
    obtain ⟨h12, -⟩ := parseRow_ok_elim row t h
    exact h12

/-- Witness for C6: a 13-cell row fails with the actual count echoed. -/
theorem parseRow_columnCount_witness :
    parseRow rowBad13
      = .error ("expected 12 columns, got " ++ toString (findAll (byTag "td") rowBad13).length) :=
  (parseRow_columnCount rowBad13).1 (by decide)

/-- C7: every boolean field of a successfully parsed record is true
exactly when the lower-cased extracted text of its cell (columns 7–11)
equals "yes". -/
theorem parseRow_booleans (row : Node) (t : InstanceType) (h : parseRow row = .ok t) :
    t.IntelAVX = (toLowerStr (text ((findAll (byTag "td") row).getD 7 zeroNode)) == "yes")
    ∧ t.IntelAVX2 = (toLowerStr (text ((findAll (byTag "td") row).getD 8 zeroNode)) == "yes")
    ∧ t.IntelTurbo = (toLowerStr (text ((findAll (byTag "td") row).getD 9 zeroNode)) == "yes")
    ∧ t.EBSOPT = (toLowerStr (text ((findAll (byTag "td") row).getD 10 zeroNode)) == "yes")
    ∧ t.EnhancedNetworking
        = (toLowerStr (text ((findAll (byTag "td") row).getD 11 zeroNode)) == "yes") := by
  obtain ⟨h12, hp⟩ := parseRow_ok_elim row t h
  simp only [parseRowAt] at hp
  split at hp
  · cases hp
  · split at hp
    · cases hp
    · split at hp
      · cases hp
      · cases hp
        refine ⟨?_, ?_, ?_, ?_, ?_⟩ <;>
          · rw [getD_eq_get _ _ _ (by omega)]
            rfl

/-- Witness for C7: the mixed-boolean fixture row. -/
theorem parseRow_booleans_witness :
    recA.IntelAVX = (toLowerStr (text ((findAll (byTag "td") rowOk1).getD 7 zeroNode)) == "yes")
    ∧ recA.IntelAVX2
        = (toLowerStr (text ((findAll (byTag "td") rowOk1).getD 8 zeroNode)) == "yes")
    ∧ recA.IntelTurbo
        = (toLowerStr (text ((findAll (byTag "td") rowOk1).getD 9 zeroNode)) == "yes")
    ∧ recA.EBSOPT
        = (toLowerStr (text ((findAll (byTag "td") rowOk1).getD 10 zeroNode)) == "yes")
    ∧ recA.EnhancedNetworking
        = (toLowerStr (text ((findAll (byTag "td") rowOk1).getD 11 zeroNode)) == "yes") :=
  parseRow_booleans rowOk1 recA (by decide)

/-- C8: on a response whose status code is not 200, `InstanceTypes` fails
with the BadStatus message whatever the body parser would return — the
body is never parsed. -/
theorem instanceTypes_badStatus (resp : Response) (parse : String → Except String Node)
    (h : resp.statusCode ≠ 200) :
    InstanceTypes (.ok resp) parse = .error ("bad response from AWS: " ++ resp.status) := by
  simp [InstanceTypes, h]

/-- Witness for C8: a 503 response with a parser that would succeed. -/
theorem instanceTypes_badStatus_witness :
    InstanceTypes (.ok respBad) parseFixture
      = .error ("bad response from AWS: " ++ respBad.status) :=
  instanceTypes_badStatus respBad parseFixture (by decide)

/-- C9: `InstanceTypes` is all-or-nothing — a successful result implies
the transport, the status check, the body parse, all three locate steps
and the row-count check succeeded, and EVERY non-header row parsed
successfully with the result collecting exactly those records; hence any
failing step, including a single failing row, yields an error and never a
partial catalog. -/
theorem instanceTypes_allOrNothing (fetch : Except String Response)
    (parse : String → Except String Node) (ts : List InstanceType)
    (h : InstanceTypes fetch parse = .ok ts) :
    ∃ (resp : Response) (root anchor hdr nxt : Node) (path hpath : Path),
      fetch = .ok resp ∧ resp.statusCode = 200 ∧ parse resp.body = .ok root
      ∧ findLoc isMatrixAnchor root [] = some (anchor, path)
      ∧ locateHeader anchor path = some (hdr, hpath)
      ∧ locateWrapper hpath = some nxt
      ∧ 3 ≤ (findAll (byTag "tr") nxt).length
      ∧ ts.length + 1 = (findAll (byTag "tr") nxt).length
      ∧ parseRows ((findAll (byTag "tr") nxt).drop 1) = .ok ts
      ∧ ∀ r ∈ (findAll (byTag "tr") nxt).drop 1, ∃ t, parseRow r = .ok t := by
  cases fetch with
  | error e => simp [InstanceTypes] at h
  | ok resp =>
    by_cases hs : resp.statusCode = 200
    · simp only [InstanceTypes, hs, ne_eq, not_true_eq_false, if_false, ite_false] at h
      split at h
      · cases h
      · next root hroot =>
        simp only [instanceTypesFromRoot] at h
        split at h
        · cases h
        · next anchor path hfind =>
          split at h
          · cases h
          · next hdr hpath hloc =>
            split at h
            · cases h
            · next nxt hwrap =>
              simp only [tableStage] at h
              split at h
              · cases h
              · next hlt =>
                have hlen := parseRows_ok_length _ _ h
                simp only [List.length_drop] at hlen
                exact ⟨resp, root, anchor, hdr, nxt, path, hpath, rfl, hs, hroot,
                  hfind, hloc, hwrap, by omega, by omega, h, parseRows_ok_mem _ _ h⟩
    · simp [InstanceTypes, hs] at h

/-- Witness for C9: the fixture fetch and parser produce the two fixture
records. -/
theorem instanceTypes_allOrNothing_witness :
    ∃ (resp : Response) (root anchor hdr nxt : Node) (path hpath : Path),
      (Except.ok respOk : Except String Response) = .ok resp
      ∧ resp.statusCode = 200 ∧ parseFixture resp.body = .ok root
      ∧ findLoc isMatrixAnchor root [] = some (anchor, path)
      ∧ locateHeader anchor path = some (hdr, hpath)
      ∧ locateWrapper hpath = some nxt
      ∧ 3 ≤ (findAll (byTag "tr") nxt).length
      ∧ ([recA, recB] : List InstanceType).length + 1 = (findAll (byTag "tr") nxt).length
      ∧ parseRows ((findAll (byTag "tr") nxt).drop 1) = .ok [recA, recB]
      ∧ ∀ r ∈ (findAll (byTag "tr") nxt).drop 1, ∃ t, parseRow r = .ok t :=
  instanceTypes_allOrNothing (.ok respOk) parseFixture [recA, recB] (by decide)

/-- C10: `attr` returns the value of the first attribute whose key equals
the given key and the empty string when none exists; consequently the
anchor test and both class-token predicates cannot distinguish a node
lacking the attribute from one carrying it with an empty value, since
they read the node only through `attr`. -/
theorem attr_first_match :
    (∀ (n : Node) (key : String),
       attr n key = (((n.attrs.find? (fun a => a.key == key)).map Attribute.val).getD ""))
    ∧ (∀ (n : Node) (key : String), (∀ a ∈ n.attrs, a.key ≠ key) → attr n key = "")
    ∧ (∀ n1 n2 : Node, attr n1 "id" = attr n2 "id" → isMatrixAnchor n1 = isMatrixAnchor n2)
    ∧ (∀ n1 n2 : Node, attr n1 "class" = attr n2 "class" →
        isSectionTitleWrapper n1 = isSectionTitleWrapper n2
        ∧ isSectionTableWrapper n1 = isSectionTableWrapper n2) := by
  refine ⟨?_, ?_, ?_, ?_⟩
  · intro n key
    exact attrAux_find key n.attrs
  · intro n key h
    have hnone : n.attrs.find? (fun a => a.key == key) = none :=
      List.find?_eq_none.mpr (fun a ha => by simpa using h a ha)
    rw [attr, attrAux_find, hnone]
    rfl
  · intro n1 n2 h
    simp only [isMatrixAnchor, h]
  · intro n1 n2 h
    constructor <;>
      simp only [isSectionTitleWrapper, isSectionTableWrapper, classTokens, h]

/-- Witness for C10: a node with no "id" attribute and a node with an
empty "id" attribute pass the anchor test identically. -/
theorem attr_first_match_witness :
    isMatrixAnchor noIdNode = isMatrixAnchor emptyIdNode :=
  attr_first_match.2.2.1 noIdNode emptyIdNode rfl

end Resize
